import Mathlib

/-!
Verification development for the opt-sim paper-trading backend.

The definitions below are a shallow embedding of the relevant parts of
`src/backend/execution_engine.py`, `src/backend/market_feed.py` and
`src/backend/greeks_calculator.py`.  Python `Decimal`/`float` arithmetic is
modelled exactly over `ℚ`; `random` draws are passed as explicit parameters;
database and Redis effects are modelled by explicit state values.  Python
`round` (both the builtin on `Decimal` and `round(x, n)` on floats) rounds
half to even, which `roundHalfEven` reproduces.
-/

namespace OptSim

/-- Python `round` on a `Decimal` or `float` value, single argument form:
round to the nearest integer, ties going to the even integer
(ROUND_HALF_EVEN, "banker's rounding"). -/
def roundHalfEven (q : ℚ) : ℤ :=
  let f := ⌊q⌋
  let r := q - (f : ℚ)
  if r < 1/2 then f
  else if 1/2 < r then f + 1
  else if f % 2 = 0 then f else f + 1

/-- Python `round(x, n)`: round to `n` decimal places, ties to even. -/
def roundDp (n : ℕ) (q : ℚ) : ℚ := (roundHalfEven (q * 10 ^ n) : ℚ) / 10 ^ n

/-- The least natural number `n` with `n * n ≥ c`; this equals
`⌈Real.sqrt c⌉` for a natural number `c`. -/
def ceilSqrtNat (c : ℕ) : ℕ :=
  if Nat.sqrt c * Nat.sqrt c = c then Nat.sqrt c else Nat.sqrt c + 1

/-- Order side, from `models.OrderSide`. -/
inductive OrderSide
  | BUY
  | SELL
deriving DecidableEq

/-- Order type, from `models.OrderType`. -/
inductive OrderType
  | MARKET
  | LIMIT
  | INSTANT
deriving DecidableEq

/-- Order status, from `models.OrderStatus`.  `PARTFILL` models the source's
partially-filled status value. -/
inductive OrderStatus
  | OPEN
  | PARTFILL
  | FILLED
  | CANCELLED
deriving DecidableEq

/-- Trade status, from `models.TradeStatus`. -/
inductive TradeStatus
  | OPEN
  | CLOSED
deriving DecidableEq

/-- Random draws consumed by one `SlippageModel.calculate_slippage` call:
`latency_ms` is `random.randint(80, 250)` and `adverse` is
`random.random() < 0.70`.  They are explicit parameters so the model is a
pure function. -/
structure SlipRand where
  latency_ms : ℕ
  adverse : Bool
deriving DecidableEq

/-- Direction bias of `calculate_slippage` (execution_engine.py line 61):
`1` when the draw is adverse (probability 0.70), `-1` when favorable. -/
def direction_bias (r : SlipRand) : ℤ := if r.adverse then 1 else -1

/-- Tick-size rule of `SlippageModel.calculate_slippage` (execution_engine.py
lines 43-47): 0.05 below price 100, else 0.10. -/
def TICK_SIZE (price : ℚ) : ℚ := if price < 100 then 1/20 else 1/10

/-- Latency slippage (execution_engine.py lines 50-106):
`price * ((iv/16)/100) * (latency_ms/1000) * direction_bias * liquidity_mod`
with the IV falling back to 15 when the stored value is 0 (line 52) and the
liquidity modifier 1.5 for stocks, 1.0 for indices (line 56).  `isStock` is
the value of the source's string heuristic
`"NSE_EQ" in instrument_key or "stock" in instrument_key.lower()`. -/
def latency_slip (price iv : ℚ) (isStock : Bool) (r : SlipRand) : ℚ :=
  let ivUse : ℚ := if iv = 0 then 15 else iv
  let liquidity_mod : ℚ := if isStock then 3/2 else 1
  price * ((ivUse / 16) / 100) * ((r.latency_ms : ℚ) / 1000) *
    (direction_bias r : ℚ) * liquidity_mod

/-- Impact ticks (execution_engine.py lines 112-117):
`ceil(sqrt(qty / q_avail) * scaler)` with scaler 2.0 for stocks and 0.5 for
indices, and `q_avail` replaced by 100000 when ≤ 0.  The real-valued
`ceil(sqrt(x) * s)` equals the least `n : ℕ` with `n^2 ≥ x * s^2`, which is
computed exactly over `ℚ` as `ceilSqrtNat ⌈x * s^2⌉`. -/
def impact_ticks (qty : ℕ) (q_avail : ℤ) (isStock : Bool) : ℕ :=
  let qa : ℤ := if q_avail ≤ 0 then 100000 else q_avail
  let impact_scaler : ℚ := if isStock then 2 else 1/2
  let impact_frac : ℚ := max 0 ((qty : ℚ) / (qa : ℚ))
  ceilSqrtNat (Int.toNat ⌈impact_frac * impact_scaler ^ 2⌉)

/-- Raw total slippage before the guardrails (execution_engine.py line 122):
latency component plus `impact_ticks * TICK_SIZE`. -/
def total_slippage_raw (price : ℚ) (qty : ℕ) (iv : ℚ) (q_avail : ℤ)
    (isStock : Bool) (r : SlipRand) : ℚ :=
  latency_slip price iv isStock r +
    (impact_ticks qty q_avail isStock : ℚ) * TICK_SIZE price

/-- Guardrail spread (execution_engine.py lines 128-129): the quote's spread
with the tick size as fallback when it is ≤ 0. -/
def spread_used (price spread : ℚ) : ℚ :=
  if spread ≤ 0 then TICK_SIZE price else spread

/-- Clamped slippage (execution_engine.py lines 131-153): the raw total
clamped into `[0.5 * spread, 3.0 * spread]`, lower bound first. -/
def clamped_slippage (price : ℚ) (qty : ℕ) (iv spread : ℚ) (q_avail : ℤ)
    (isStock : Bool) (r : SlipRand) : ℚ :=
  let s := spread_used price spread
  let min_slip := s * (1/2)
  let max_slip := s * 3
  let t := total_slippage_raw price qty iv q_avail isStock r
  let t1 := if t < min_slip then min_slip else t
  if t1 > max_slip then max_slip else t1

/-- `SlippageModel.calculate_slippage` (execution_engine.py lines 22-160):
the clamped slippage rounded to the nearest tick, ties to even (Python
`round` on `Decimal`, line 157).  The market-data dict is passed as its
read fields: `iv` (key `iv`, default 0), `spread` (key `spread`, default
1.0 supplied by the caller of this definition), and `q_avail` (key
`ask_qty`/`bid_qty` depending on the order side). -/
def calculate_slippage (price : ℚ) (qty : ℕ) (iv spread : ℚ) (q_avail : ℤ)
    (isStock : Bool) (r : SlipRand) : ℚ :=
  (roundHalfEven (clamped_slippage price qty iv spread q_avail isStock r /
    TICK_SIZE price) : ℚ) * TICK_SIZE price

/-- A quote as the execution engine reads it from the store
(execution_engine.py lines 214-293 and market_feed.py lines 1172-1268).
`Option` fields model dictionary keys that can be absent: `spread` has two
different call-site defaults (1.0 in `calculate_slippage`, 0.05 in the
favorable cap), so its absence must be representable.  Fields read with a
fixed default (`spread_pct`→0, `bid_ts`/`ask_ts`→0, `bid_simulated`/
`ask_simulated`→True, `iv`→0) carry that default directly. -/
structure MarketData where
  ltp : ℚ
  bid : ℚ
  ask : ℚ
  bid_qty : ℤ
  ask_qty : ℤ
  iv : ℚ
  spread : Option ℚ
  spread_pct : ℚ
  bid_ts : ℤ
  ask_ts : ℤ
  bid_simulated : Bool
  ask_simulated : Bool
deriving DecidableEq

/-- An order as mutated by the engine (`models.Order` fields the engine
touches). -/
structure Order where
  qty : ℕ
  filled_qty : ℕ
  status : OrderStatus
  side : OrderSide
  order_type : OrderType
  limit_price : ℚ
  avg_fill_price : Option ℚ
  expected_price : Option ℚ
  slippage : Option ℚ
deriving DecidableEq

/-- `ExecutionEngine._apply_fill` (execution_engine.py lines 530-555): VWAP
update of the average fill price and the status transition
(FILLED when `filled_qty ≥ qty`, else PARTIAL when `filled_qty > 0`).
The FILLED branch additionally triggers `_create_trade`, modelled
separately below. -/
def _apply_fill (o : Order) (fill_price : ℚ) (fill_qty : ℕ) : Order :=
  let total_filled := o.filled_qty + fill_qty
  let previous_total := (Option.getD o.avg_fill_price 0) * (o.filled_qty : ℚ)
  let new_total := previous_total + fill_price * (fill_qty : ℚ)
  let new_avg := new_total / (total_filled : ℚ)
  let o2 : Order := { o with filled_qty := total_filled, avg_fill_price := some new_avg }
  if o2.qty ≤ total_filled then { o2 with status := .FILLED }
  else if 0 < total_filled then { o2 with status := .PARTFILL }
  else o2

/-- `ExecutionEngine._execute_market` (execution_engine.py lines 330-411):
slippage-adjusted fill of the full remaining quantity, with the favorable
cap of lines 361-368.  Returns the updated order and the applied
(price, qty) fill, `none` when nothing was applied. -/
def _execute_market (o : Order) (bid ask : ℚ) (md : MarketData)
    (isStock : Bool) (r : SlipRand) : Order × Option (ℚ × ℕ) :=
  if o.qty ≤ o.filled_qty then (o, none) else
  let remaining_qty : ℕ := o.qty - o.filled_qty
  let base_price := if o.side = .BUY then ask else bid
  let q_avail : ℤ := if o.side = .BUY then md.ask_qty else md.bid_qty
  let ts := calculate_slippage base_price remaining_qty md.iv
    (Option.getD md.spread 1) q_avail isStock r
  let ts2 :=
    if ts < 0 then
      let spread := Option.getD md.spread (1/20)
      let max_favorable := spread * (1/2)
      if max_favorable < |ts| then -max_favorable else ts
    else ts
  let fill_price := if o.side = .BUY then base_price + ts2 else base_price - ts2
  let o2 : Order := { o with expected_price := some base_price, slippage := some ts2 }
  (_apply_fill o2 fill_price remaining_qty, some (fill_price, remaining_qty))

/-- `ExecutionEngine._execute_limit` (execution_engine.py lines 413-528):
fill when the touch satisfies the limit, applying the full slippage model
for aggressive (spread-crossing) limits, capped at the limit price. -/
def _execute_limit (o : Order) (bid ask : ℚ) (md : MarketData)
    (isStock : Bool) (r : SlipRand) : Order × Option (ℚ × ℕ) :=
  if o.qty ≤ o.filled_qty then (o, none) else
  let remaining_qty : ℕ := o.qty - o.filled_qty
  let is_aggressive : Bool :=
    if o.side = .BUY then decide (ask ≤ o.limit_price)
    else decide (o.limit_price ≤ bid)
  match o.side with
  | .BUY =>
    if ask ≤ o.limit_price then
      let base_price := ask
      let slip0 : ℚ :=
        if is_aggressive then
          calculate_slippage base_price remaining_qty md.iv
            (Option.getD md.spread 1) md.ask_qty isStock r
        else 0
      let fill0 := if is_aggressive then base_price + slip0 else base_price
      let fill_price := if is_aggressive ∧ o.limit_price < fill0 then o.limit_price else fill0
      let slip1 := if is_aggressive ∧ o.limit_price < fill0 then fill_price - base_price else slip0
      let oslip := if is_aggressive then slip1 else 0
      let o2 : Order := { o with expected_price := some base_price, slippage := some oslip }
      (_apply_fill o2 fill_price remaining_qty, some (fill_price, remaining_qty))
    else (o, none)
  | .SELL =>
    if o.limit_price ≤ bid then
      let base_price := bid
      let slip0 : ℚ :=
        if is_aggressive then
          calculate_slippage base_price remaining_qty md.iv
            (Option.getD md.spread 1) md.bid_qty isStock r
        else 0
      let fill0 := if is_aggressive then base_price - slip0 else base_price
      let fill_price := if is_aggressive ∧ fill0 < o.limit_price then o.limit_price else fill0
      let slip1 := if is_aggressive ∧ fill0 < o.limit_price then base_price - fill_price else slip0
      let oslip := if is_aggressive then slip1 else 0
      let o2 : Order := { o with expected_price := some base_price, slippage := some oslip }
      (_apply_fill o2 fill_price remaining_qty, some (fill_price, remaining_qty))
    else (o, none)

/-- Staleness and mixed-book checks of `ExecutionEngine.execute_order`
(execution_engine.py lines 220-266), evaluated only when live market data
with a nonzero LTP exists and a simulated price was supplied: the fallback
fires when the simulated flags mismatch, either side is ≤ 0, or either side
is older than the spread-dependent threshold (15 s when spread_pct > 10,
else 3 s; an unset timestamp counts as age 999999 ms). -/
def should_simulate_checks (md : MarketData) (now_ms : ℤ) : Bool :=
  let threshold : ℤ := if md.spread_pct > 10 then 15000 else 3000
  let bid_age : ℤ := if 0 < md.bid_ts then now_ms - md.bid_ts else 999999
  let ask_age : ℤ := if 0 < md.ask_ts then now_ms - md.ask_ts else 999999
  if md.bid_simulated ≠ md.ask_simulated then true
  else decide (md.bid ≤ 0) || decide (md.ask ≤ 0) ||
    decide (threshold < bid_age) || decide (threshold < ask_age)

/-- The replacement market data built when the engine falls back to the
caller-supplied simulated price (execution_engine.py lines 268-276):
ltp, bid and ask all equal to the simulated price, both quantities 100000,
every other dictionary key absent (so reads fall back to their defaults,
and both simulated flags read as True). -/
def simMD (p : ℚ) : MarketData :=
  { ltp := p, bid := p, ask := p, bid_qty := 100000, ask_qty := 100000,
    iv := 0, spread := none, spread_pct := 0, bid_ts := 0, ask_ts := 0,
    bid_simulated := true, ask_simulated := true }

/-- Inputs of one execution attempt: the stored quote (if any), the optional
caller-supplied simulated price, the wall clock in ms, and the random draws
consumed by the slippage model. -/
structure Attempt where
  md : Option MarketData
  simulated_price : Option ℚ
  now_ms : ℤ
  rand : SlipRand

/-- Quote sourcing and fallback of `ExecutionEngine.execute_order`
(execution_engine.py lines 204-280): `should_simulate` is set when market
data is absent or its LTP is zero, or — only when a simulated price was
supplied — when the staleness/mixed-book checks fire; when
`should_simulate` holds and a simulated price is present, the market data
is replaced by `simMD`.  Python truthiness is respected: both
`elif simulated_price:` (line 220) and `if should_simulate and
simulated_price:` (line 268) treat a `Decimal(0)` override as absent, so
`has_sim` requires a nonzero value. -/
def resolve_md (a : Attempt) : Option MarketData :=
  let current_ltp : ℚ := match a.md with | none => 0 | some m => m.ltp
  let sp_val : ℚ := match a.simulated_price with | none => 0 | some p => p
  let has_sim : Bool := decide (sp_val ≠ 0)
  let should_simulate : Bool :=
    if a.md.isNone || decide (current_ltp = 0) then true
    else if has_sim then
      match a.md with
      | some m => should_simulate_checks m a.now_ms
      | none => false
    else false
  if should_simulate && has_sim then some (simMD sp_val) else a.md

/-- `ExecutionEngine.execute_order` (execution_engine.py lines 181-328) with
the Redis lock, the DB refresh and logging abstracted away.  Returns the
updated order together with the applied (price, qty) fill, `none` when the
attempt aborted or did not fill.  Trade and balance mutations
(`_create_trade`) happen only downstream of an applied fill.  Aborts: a
status outside OPEN/PARTIAL, no resolvable market data, a zero LTP, or a
crossed book (`bid > 0 and ask > 0 and bid > ask`, lines 299-304). -/
def execute_order (o : Order) (isStock : Bool) (a : Attempt) :
    Order × Option (ℚ × ℕ) :=
  if o.status ≠ .OPEN ∧ o.status ≠ .PARTFILL then (o, none) else
  match resolve_md a with
  | none => (o, none)
  | some m =>
    if m.ltp = 0 then (o, none) else
    if 0 < m.bid ∧ 0 < m.ask ∧ m.ask < m.bid then (o, none) else
    if o.order_type = .MARKET ∨ o.order_type = .INSTANT then
      _execute_market o m.bid m.ask m isStock a.rand
    else
      _execute_limit o m.bid m.ask m isStock a.rand

/-- A sequence of execution attempts on one order (each tick of
`check_pending_orders` calls `execute_order` once per pending order). -/
def run_attempts (o : Order) (isStock : Bool) (atts : List Attempt) : Order :=
  List.foldl (fun acc a => (execute_order acc isStock a).1) o atts

/-- Rank of an order status along the OPEN → PARTIAL → FILLED progression
(CANCELLED is terminal). -/
def statusRank : OrderStatus → ℕ
  | .OPEN => 0
  | .PARTFILL => 1
  | .FILLED => 2
  | .CANCELLED => 3

/-- A trade row as touched by `_create_trade` (`models.Trade` fields the
netting logic reads and writes). -/
structure TradeRec where
  side : OrderSide
  qty : ℕ
  entry_price : ℚ
  exit_price : Option ℚ
  status : TradeStatus
  realized_pnl : ℚ
deriving DecidableEq

/-- Realized PnL for closing `q` units of trade `t` at `exitP`
(execution_engine.py lines 661-679): `(exit - entry) * q` when closing a
long, `(entry - exit) * q` when closing a short. -/
def close_pnl (t : TradeRec) (exitP : ℚ) (q : ℕ) : ℚ :=
  if t.side = .BUY then (exitP - t.entry_price) * (q : ℚ)
  else (t.entry_price - exitP) * (q : ℚ)

/-- Result of the `_create_trade` netting pass: the existing rows after
mutation (in their original order), the newly inserted CLOSED slice rows,
the optional new OPEN trade, the total realized PnL, and the net change to
the user's virtual balance. -/
structure NetResult where
  updated : List TradeRec
  slices : List TradeRec
  new_trade : Option TradeRec
  total_pnl : ℚ
  balance_delta : ℚ
deriving DecidableEq

/-- The FIFO loop of `_create_trade` (execution_engine.py lines 610-702)
over the opposite-side OPEN trades in `created_at` ascending order:
closes `min(trade.qty, remaining)` of each row — a full close marks the row
CLOSED with exit price and realized PnL; a partial close reduces the row's
qty and inserts a separate CLOSED slice row carrying its own realized PnL —
crediting (SELL-to-close) or debiting (BUY-to-close) the exit notional, and
stops once the remaining quantity is exhausted.  Returns
(updated rows, inserted slices, remaining qty, total pnl, balance delta). -/
def fifo_close (orderSide : OrderSide) (exitP : ℚ) :
    ℕ → List TradeRec → List TradeRec × List TradeRec × ℕ × ℚ × ℚ
  | remaining, [] => ([], [], remaining, 0, 0)
  | remaining, t :: rest =>
    if remaining = 0 then (t :: rest, [], 0, 0, 0)
    else
      let close_qty := min t.qty remaining
      let pnl := close_pnl t exitP close_qty
      let exit_value := (close_qty : ℚ) * exitP
      let bal := if orderSide = .SELL then exit_value else -exit_value
      let out := fifo_close orderSide exitP (remaining - close_qty) rest
      if close_qty = t.qty then
        let t2 : TradeRec :=
          { t with
            status := .CLOSED
            exit_price := some exitP
            realized_pnl := pnl }
        (t2 :: out.1, out.2.1, out.2.2.1, pnl + out.2.2.2.1, bal + out.2.2.2.2)
      else
        let t2 : TradeRec := { t with qty := t.qty - close_qty }
        let slice : TradeRec :=
          { side := t.side
            qty := close_qty
            entry_price := t.entry_price
            exit_price := some exitP
            status := .CLOSED
            realized_pnl := pnl }
        (t2 :: out.1, slice :: out.2.1, out.2.2.1, pnl + out.2.2.2.1, bal + out.2.2.2.2)

/-- `ExecutionEngine._create_trade` (execution_engine.py lines 567-759) for a
FILLED order of side `orderSide`, quantity `orderQty` and average fill price
`avgFill`.  `existing` is the result of the source's query: the same
user/instrument OPEN trades of the opposite side, ordered by `created_at`
ascending.  After the FIFO pass, any remaining quantity opens a new OPEN
trade at the fill price, debiting the notional for a BUY and crediting it
for a SELL. -/
def _create_trade (orderSide : OrderSide) (orderQty : ℕ) (avgFill : ℚ)
    (existing : List TradeRec) : NetResult :=
  let out := fifo_close orderSide avgFill orderQty existing
  let rem := out.2.2.1
  if 0 < rem then
    let transaction_value := (rem : ℚ) * avgFill
    let bal2 := if orderSide = .BUY then out.2.2.2.2 - transaction_value
                else out.2.2.2.2 + transaction_value
    { updated := out.1
      slices := out.2.1
      new_trade := some
        { side := orderSide
          qty := rem
          entry_price := avgFill
          exit_price := none
          status := .OPEN
          realized_pnl := 0 }
      total_pnl := out.2.2.2.1
      balance_delta := bal2 }
  else
    { updated := out.1
      slices := out.2.1
      new_trade := none
      total_pnl := out.2.2.2.1
      balance_delta := out.2.2.2.2 }

/-- A Python float value as seen by the greeks sanitizer: NaN, ±Inf, or an
ordinary value (modelled exactly as a rational). -/
inductive PyFloat
  | nan
  | inf
  | ninf
  | val (q : ℚ)
deriving DecidableEq

/-- `safe_val` of `greeks_calculator.calculate_greeks` (greeks_calculator.py
lines 76-78): NaN and ±Inf become 0.0, everything else is `round(x, 4)`. -/
def safe_val : PyFloat → ℚ
  | .nan => 0
  | .inf => 0
  | .ninf => 0
  | .val q => roundDp 4 q

/-- The raw values computed inside the `try` block of `calculate_greeks`
(implied volatility via Newton-Raphson, then the Black-Scholes greeks).
These are transcendental floating-point computations; theorems about the
guard and sanitization stages quantify over them. -/
structure RawGreeks where
  iv : PyFloat
  delta : PyFloat
  theta : PyFloat
  gamma : PyFloat
  vega : PyFloat

/-- The sanitized output dictionary of `calculate_greeks`. -/
structure GreeksOut where
  iv : ℚ
  delta : ℚ
  theta : ℚ
  gamma : ℚ
  vega : ℚ
deriving DecidableEq

/-- The all-zero greeks dictionary returned on rejected inputs. -/
def zeroGreeks : GreeksOut := ⟨0, 0, 0, 0, 0⟩

/-- The Python test `iv == 0 or iv > 5.0` (greeks_calculator.py line 54);
NaN compares false on both, +Inf is > 5.0. -/
def iv_reject : PyFloat → Bool
  | .nan => false
  | .inf => true
  | .ninf => false
  | .val q => decide (q = 0) || decide (5 < q)

/-- `greeks_calculator.calculate_greeks` (greeks_calculator.py lines 13-90):
the input guards (lines 35-41), the IV rejection (line 54) and the output
sanitization (lines 76-86).  The numeric stage inside the `try` block is
supplied as `raw`; the `except` path returns the same all-zero dictionary
as the guards, so it is subsumed by quantifying over `raw`.  Note line 84:
the returned gamma is `round(safe_val(gamma), 6)`, i.e. a 6-decimal rounding
applied AFTER safe_val's 4-decimal rounding. -/
def calculate_greeks (spot_price strike_price time_to_expiry_days option_ltp : ℚ)
    (raw : RawGreeks) : GreeksOut :=
  if spot_price ≤ 0 ∨ strike_price ≤ 0 ∨ option_ltp ≤ 0 then zeroGreeks
  else if time_to_expiry_days < 0 then zeroGreeks
  else if iv_reject raw.iv then zeroGreeks
  else
    { iv := safe_val raw.iv, delta := safe_val raw.delta,
      theta := safe_val raw.theta, gamma := roundDp 6 (safe_val raw.gamma),
      vega := safe_val raw.vega }

/-- `UpstoxFeedBridge.calculate_atm` (market_feed.py lines 824-834):
`round(spot_price / strike_step) * strike_step` with Python's builtin
`round` — which rounds half to even — returning the spot unchanged when the
configured strike step is ≤ 0.  The `ℚ` model and the float computation
round to the same integer at the inputs considered below: 23525/50 = 470.5
is exactly representable, and 23524/50 lies far from a tie.  The source's
own docstring claims half-up rounding with the example `23525 -> 23550`. -/
def calculate_atm (strike_step spot_price : ℚ) : ℚ :=
  if strike_step ≤ 0 then spot_price
  else (roundHalfEven (spot_price / strike_step) : ℚ) * strike_step

/-- Modelled from the spec: the ATM rule as the spec words it,
`atm = round(spot / step) * step` using round-half-up, for comparison with
`calculate_atm` as implemented. -/
def atm_spec_halfup (strike_step spot_price : ℚ) : ℚ :=
  if strike_step ≤ 0 then spot_price
  else ((⌊spot_price / strike_step + 1/2⌋ : ℤ) : ℚ) * strike_step

/-- Control flow of `UpstoxFeedBridge._process_data` over one inbound
message (market_feed.py lines 961-1297).  Each list element is one
instrument's entry of the `feeds` dict: its (normalized) key and the
outcome of extracting/enriching its tick — `none` models an exception
raised inside the loop body for that instrument, `some d` the record that
reaches `self.update_buffer[key] = data`.  The whole per-instrument loop
runs inside the method's single `try`, so the first raising tick aborts the
loop; the `except` handler (lines 1286-1297) then stores the previously
built record (if any) under the failing instrument's key.  `prev` carries
that previously built record; the result is the ordered list of buffer
assignments performed. -/
def _process_data {α : Type} : Option α → List (ℕ × Option α) → List (ℕ × α)
  | _, [] => []
  | _, (k, some d) :: rest => (k, d) :: _process_data (some d) rest
  | prev, (k, none) :: _ =>
    match prev with
    | some d => [(k, d)]
    | none => []

/-- `_process_data` on a fresh message: no record has been built yet. -/
def process_data {α : Type} (feeds : List (ℕ × Option α)) : List (ℕ × α) :=
  _process_data none feeds

/-- A concrete OPEN market order used by several witnesses. -/
def mktOrder : Order :=
  { qty := 10, filled_qty := 0, status := .OPEN, side := .BUY,
    order_type := .MARKET, limit_price := 0, avg_fill_price := none,
    expected_price := none, slippage := none }

/-- Stored quote of the spec scenario: ask 100.00, bid 99.90, IV 15 (index),
stored spread 0.10, top-of-book sizes 100000. -/
def scenario_md : MarketData :=
  { ltp := 100, bid := 999/10, ask := 100, bid_qty := 100000, ask_qty := 100000,
    iv := 15, spread := some (1/10), spread_pct := 1/10, bid_ts := 0, ask_ts := 0,
    bid_simulated := false, ask_simulated := false }

/-- A concrete FILLED order used by no-op witnesses. -/
def doneOrder : Order := { mktOrder with status := .FILLED }

/-- A concrete attempt with no market data available. -/
def emptyAttempt : Attempt :=
  { md := none, simulated_price := none, now_ms := 0, rand := ⟨100, true⟩ }

/-- Crossed stored quote used by the C5 witness and counterexample:
bid 105 > ask 100. -/
def crossed_md : MarketData :=
  { ltp := 102, bid := 105, ask := 100, bid_qty := 100000, ask_qty := 100000,
    iv := 15, spread := some (-5), spread_pct := 0, bid_ts := 1000, ask_ts := 1000,
    bid_simulated := false, ask_simulated := false }

/-- Crossed stored quote with mismatched simulated flags (one side real,
one synthesized), as the feed writes after a one-sided depth update. -/
def crossed_mixed_md : MarketData :=
  { crossed_md with bid_simulated := true, ask_simulated := false }

/-- Live mixed-flag quote (real ask, synthesized bid) with ask 101. -/
def mixed_md_a : MarketData :=
  { ltp := 102, bid := 100, ask := 101, bid_qty := 100000, ask_qty := 100000,
    iv := 15, spread := some 1, spread_pct := 1, bid_ts := 1000, ask_ts := 1000,
    bid_simulated := true, ask_simulated := false }

/-- The same quote except the ask is 103. -/
def mixed_md_b : MarketData := { mixed_md_a with ask := 103 }

theorem roundHalfEven_ge_floor (q : ℚ) : ⌊q⌋ ≤ roundHalfEven q := by
  unfold roundHalfEven
  dsimp only
  split_ifs <;> omega

theorem roundHalfEven_sub_le (q : ℚ) : |(roundHalfEven q : ℚ) - q| ≤ 1/2 := by
  have hfl : (⌊q⌋ : ℚ) ≤ q := Int.floor_le q
  have hfu : q < (⌊q⌋ : ℚ) + 1 := Int.lt_floor_add_one q
  unfold roundHalfEven
  dsimp only
  split_ifs with h1 h2 h3 <;> rw [abs_le] <;> constructor <;> push_cast <;> linarith

/-- Evaluation rule: when `n ≤ q < n + 1/2` the rounding returns `n`. -/
theorem roundHalfEven_eq_low {q : ℚ} {n : ℤ} (h1 : (n : ℚ) ≤ q)
    (h2 : q < (n : ℚ) + 1/2) : roundHalfEven q = n := by
  have hf : ⌊q⌋ = n := Int.floor_eq_iff.mpr ⟨h1, by linarith⟩
  unfold roundHalfEven
  rw [hf]
  dsimp only
  rw [if_pos (by linarith)]

/-- Evaluation rule: when `n + 1/2 < q < n + 1` the rounding returns `n+1`. -/
theorem roundHalfEven_eq_high {q : ℚ} {n : ℤ} (h1 : (n : ℚ) + 1/2 < q)
    (h2 : q < (n : ℚ) + 1) : roundHalfEven q = n + 1 := by
  have hf : ⌊q⌋ = n := Int.floor_eq_iff.mpr ⟨by linarith, by linarith⟩
  unfold roundHalfEven
  rw [hf]
  dsimp only
  rw [if_neg (by linarith), if_pos (by linarith)]

/-- Evaluation rule: an exact half with an even integer part rounds down. -/
theorem roundHalfEven_eq_half_even {n : ℤ} (he : n % 2 = 0) :
    roundHalfEven ((n : ℚ) + 1/2) = n := by
  have hf : ⌊(n : ℚ) + 1/2⌋ = n := Int.floor_eq_iff.mpr ⟨by linarith, by linarith⟩
  unfold roundHalfEven
  rw [hf]
  dsimp only
  rw [if_neg (by linarith), if_neg (by linarith), if_pos he]

theorem roundHalfEven_nonneg {q : ℚ} (h : 0 ≤ q) : 0 ≤ roundHalfEven q := by
  have := roundHalfEven_ge_floor q
  have h0 : 0 ≤ ⌊q⌋ := Int.floor_nonneg.mpr h
  omega

theorem TICK_SIZE_pos (price : ℚ) : 0 < TICK_SIZE price := by
  unfold TICK_SIZE
  split_ifs <;> norm_num

theorem spread_used_pos (price spread : ℚ) : 0 < spread_used price spread := by
  unfold spread_used
  split_ifs with h
  · exact TICK_SIZE_pos price
  · linarith [not_le.mp h]

theorem clamped_slippage_ge (price : ℚ) (qty : ℕ) (iv spread : ℚ) (q_avail : ℤ)
    (isStock : Bool) (r : SlipRand) :
    spread_used price spread * (1/2) ≤
      clamped_slippage price qty iv spread q_avail isStock r := by
  have hs := spread_used_pos price spread
  unfold clamped_slippage
  dsimp only
  split_ifs <;> linarith

theorem clamped_slippage_le (price : ℚ) (qty : ℕ) (iv spread : ℚ) (q_avail : ℤ)
    (isStock : Bool) (r : SlipRand) :
    clamped_slippage price qty iv spread q_avail isStock r ≤
      spread_used price spread * 3 := by
  have hs := spread_used_pos price spread
  unfold clamped_slippage
  dsimp only
  split_ifs <;> linarith

theorem clamped_slippage_pos (price : ℚ) (qty : ℕ) (iv spread : ℚ) (q_avail : ℤ)
    (isStock : Bool) (r : SlipRand) :
    0 < clamped_slippage price qty iv spread q_avail isStock r := by
  have hs := spread_used_pos price spread
  have := clamped_slippage_ge price qty iv spread q_avail isStock r
  linarith

theorem calculate_slippage_nonneg (price : ℚ) (qty : ℕ) (iv spread : ℚ)
    (q_avail : ℤ) (isStock : Bool) (r : SlipRand) :
    0 ≤ calculate_slippage price qty iv spread q_avail isStock r := by
  have ht := TICK_SIZE_pos price
  have hc := clamped_slippage_pos price qty iv spread q_avail isStock r
  unfold calculate_slippage
  have hq : 0 ≤ clamped_slippage price qty iv spread q_avail isStock r / TICK_SIZE price :=
    le_of_lt (div_pos hc ht)
  have hr := roundHalfEven_nonneg hq
  have hrq : (0 : ℚ) ≤ (roundHalfEven (clamped_slippage price qty iv spread q_avail isStock r / TICK_SIZE price) : ℚ) := by
    exact_mod_cast hr
  exact mul_nonneg hrq (le_of_lt ht)

theorem calculate_slippage_tick_multiple (price : ℚ) (qty : ℕ) (iv spread : ℚ)
    (q_avail : ℤ) (isStock : Bool) (r : SlipRand) :
    ∃ n : ℕ, calculate_slippage price qty iv spread q_avail isStock r
      = (n : ℚ) * TICK_SIZE price := by
  have ht := TICK_SIZE_pos price
  have hc := clamped_slippage_pos price qty iv spread q_avail isStock r
  have hq : 0 ≤ clamped_slippage price qty iv spread q_avail isStock r / TICK_SIZE price :=
    le_of_lt (div_pos hc ht)
  have hr := roundHalfEven_nonneg hq
  refine ⟨(roundHalfEven (clamped_slippage price qty iv spread q_avail isStock r / TICK_SIZE price)).toNat, ?_⟩
  unfold calculate_slippage
  congr 1
  exact_mod_cast (Int.toNat_of_nonneg hr).symm

theorem _apply_fill_qty (o : Order) (p : ℚ) (q : ℕ) :
    (_apply_fill o p q).qty = o.qty := by
  unfold _apply_fill
  dsimp only
  split_ifs <;> rfl

theorem _apply_fill_filled (o : Order) (p : ℚ) (q : ℕ) :
    (_apply_fill o p q).filled_qty = o.filled_qty + q := by
  unfold _apply_fill
  dsimp only
  split_ifs <;> rfl

theorem _apply_fill_status_filled (o : Order) (p : ℚ) (q : ℕ)
    (h : o.qty ≤ o.filled_qty + q) : (_apply_fill o p q).status = .FILLED := by
  unfold _apply_fill
  dsimp only
  rw [if_pos h]

theorem _execute_market_qty (o : Order) (bid ask : ℚ) (md : MarketData)
    (s : Bool) (r : SlipRand) :
    (_execute_market o bid ask md s r).1.qty = o.qty := by
  unfold _execute_market
  by_cases h : o.qty ≤ o.filled_qty
  · rw [if_pos h]
  · rw [if_neg h]
    dsimp only
    rw [_apply_fill_qty]

theorem _execute_market_step (o : Order) (bid ask : ℚ) (md : MarketData)
    (s : Bool) (r : SlipRand) :
    (_execute_market o bid ask md s r).1 = o ∨
    ((_execute_market o bid ask md s r).1.filled_qty = o.qty ∧
      (_execute_market o bid ask md s r).1.status = .FILLED ∧
      o.filled_qty < o.qty) := by
  unfold _execute_market
  by_cases h : o.qty ≤ o.filled_qty
  · rw [if_pos h]
    exact Or.inl rfl
  · rw [if_neg h]
    right
    dsimp only
    rw [_apply_fill_filled, _apply_fill_status_filled]
    · refine ⟨?_, rfl, by omega⟩
      show o.filled_qty + (o.qty - o.filled_qty) = o.qty
      omega
    · show o.qty ≤ o.filled_qty + (o.qty - o.filled_qty)
      omega

theorem _execute_limit_qty (o : Order) (bid ask : ℚ) (md : MarketData)
    (s : Bool) (r : SlipRand) :
    (_execute_limit o bid ask md s r).1.qty = o.qty := by
  unfold _execute_limit
  by_cases h : o.qty ≤ o.filled_qty
  · rw [if_pos h]
  · rw [if_neg h]
    rcases hside : o.side with _ | _ <;> dsimp only
    · by_cases hfill : ask ≤ o.limit_price
      · rw [if_pos hfill]
        dsimp only
        rw [_apply_fill_qty]
      · rw [if_neg hfill]
    · by_cases hfill : o.limit_price ≤ bid
      · rw [if_pos hfill]
        dsimp only
        rw [_apply_fill_qty]
      · rw [if_neg hfill]

theorem _execute_limit_step (o : Order) (bid ask : ℚ) (md : MarketData)
    (s : Bool) (r : SlipRand) :
    (_execute_limit o bid ask md s r).1 = o ∨
    ((_execute_limit o bid ask md s r).1.filled_qty = o.qty ∧
      (_execute_limit o bid ask md s r).1.status = .FILLED ∧
      o.filled_qty < o.qty) := by
  unfold _execute_limit
  by_cases h : o.qty ≤ o.filled_qty
  · rw [if_pos h]
    exact Or.inl rfl
  · rw [if_neg h]
    rcases hside : o.side with _ | _ <;> dsimp only
    · by_cases hfill : ask ≤ o.limit_price
      · rw [if_pos hfill]
        right
        dsimp only
        rw [_apply_fill_filled, _apply_fill_status_filled]
        · refine ⟨?_, rfl, by omega⟩
          show o.filled_qty + (o.qty - o.filled_qty) = o.qty
          omega
        · show o.qty ≤ o.filled_qty + (o.qty - o.filled_qty)
          omega
      · rw [if_neg hfill]
        exact Or.inl rfl
    · by_cases hfill : o.limit_price ≤ bid
      · rw [if_pos hfill]
        right
        dsimp only
        rw [_apply_fill_filled, _apply_fill_status_filled]
        · refine ⟨?_, rfl, by omega⟩
          show o.filled_qty + (o.qty - o.filled_qty) = o.qty
          omega
        · show o.qty ≤ o.filled_qty + (o.qty - o.filled_qty)
          omega
      · rw [if_neg hfill]
        exact Or.inl rfl

theorem execute_order_noop (o : Order) (s : Bool) (a : Attempt)
    (h1 : o.status ≠ .OPEN) (h2 : o.status ≠ .PARTFILL) :
    execute_order o s a = (o, none) := by
  unfold execute_order
  rw [if_pos ⟨h1, h2⟩]

theorem execute_order_qty (o : Order) (s : Bool) (a : Attempt) :
    (execute_order o s a).1.qty = o.qty := by
  unfold execute_order
  by_cases hst : o.status ≠ .OPEN ∧ o.status ≠ .PARTFILL
  · rw [if_pos hst]
  · rw [if_neg hst]
    rcases hm : resolve_md a with _ | m
    · rfl
    · dsimp only
      split_ifs with h1 h2 h3
      · rfl
      · rfl
      · exact _execute_market_qty o m.bid m.ask m s a.rand
      · exact _execute_limit_qty o m.bid m.ask m s a.rand

theorem execute_order_step (o : Order) (s : Bool) (a : Attempt) :
    (execute_order o s a).1 = o ∨
    ((execute_order o s a).1.filled_qty = o.qty ∧
      (execute_order o s a).1.status = .FILLED ∧ o.filled_qty < o.qty ∧
      (o.status = .OPEN ∨ o.status = .PARTFILL)) := by
  unfold execute_order
  by_cases hst : o.status ≠ .OPEN ∧ o.status ≠ .PARTFILL
  · rw [if_pos hst]
    exact Or.inl rfl
  · have hstat : o.status = .OPEN ∨ o.status = .PARTFILL := by
      by_contra hc
      push_neg at hc
      exact hst ⟨hc.1, hc.2⟩
    rw [if_neg hst]
    rcases hm : resolve_md a with _ | m
    · exact Or.inl rfl
    · dsimp only
      split_ifs with h1 h2 h3
      · exact Or.inl rfl
      · exact Or.inl rfl
      · rcases _execute_market_step o m.bid m.ask m s a.rand with hl | ⟨hf, hs2, hlt⟩
        · exact Or.inl hl
        · exact Or.inr ⟨hf, hs2, hlt, hstat⟩
      · rcases _execute_limit_step o m.bid m.ask m s a.rand with hl | ⟨hf, hs2, hlt⟩
        · exact Or.inl hl
        · exact Or.inr ⟨hf, hs2, hlt, hstat⟩

theorem execute_order_filled_mono (o : Order) (s : Bool) (a : Attempt) :
    o.filled_qty ≤ (execute_order o s a).1.filled_qty := by
  rcases execute_order_step o s a with hl | ⟨hf, _, hlt, _⟩
  · rw [hl]
  · omega

theorem execute_order_filled_le (o : Order) (s : Bool) (a : Attempt)
    (h : o.filled_qty ≤ o.qty) : (execute_order o s a).1.filled_qty ≤ o.qty := by
  rcases execute_order_step o s a with hl | ⟨hf, _, hlt, _⟩
  · rw [hl]
    exact h
  · omega

theorem execute_order_rank (o : Order) (s : Bool) (a : Attempt) :
    statusRank o.status ≤ statusRank (execute_order o s a).1.status := by
  rcases execute_order_step o s a with hl | ⟨_, hs2, _, hstat⟩
  · rw [hl]
  · rw [hs2]
    rcases hstat with h | h <;> rw [h] <;> decide

theorem run_attempts_qty (o : Order) (s : Bool) (atts : List Attempt) :
    (run_attempts o s atts).qty = o.qty := by
  induction atts generalizing o with
  | nil => rfl
  | cons a t ih =>
    unfold run_attempts at ih ⊢
    rw [List.foldl_cons]
    rw [ih, execute_order_qty]

theorem run_attempts_filled_mono (o : Order) (s : Bool) (atts : List Attempt) :
    o.filled_qty ≤ (run_attempts o s atts).filled_qty := by
  induction atts generalizing o with
  | nil => exact le_refl _
  | cons a t ih =>
    unfold run_attempts at ih ⊢
    rw [List.foldl_cons]
    exact le_trans (execute_order_filled_mono o s a) (ih _)

theorem run_attempts_filled_le (o : Order) (s : Bool) (atts : List Attempt)
    (h : o.filled_qty ≤ o.qty) : (run_attempts o s atts).filled_qty ≤ o.qty := by
  induction atts generalizing o with
  | nil => exact h
  | cons a t ih =>
    unfold run_attempts at ih ⊢
    rw [List.foldl_cons]
    have h2 := execute_order_filled_le o s a h
    have h3 := execute_order_qty o s a
    have := ih (execute_order o s a).1 (by omega)
    rw [execute_order_qty] at this
    omega

theorem run_attempts_rank (o : Order) (s : Bool) (atts : List Attempt) :
    statusRank o.status ≤ statusRank (run_attempts o s atts).status := by
  induction atts generalizing o with
  | nil => exact le_refl _
  | cons a t ih =>
    unfold run_attempts at ih ⊢
    rw [List.foldl_cons]
    exact le_trans (execute_order_rank o s a) (ih _)

theorem run_attempts_noop (o : Order) (s : Bool) (atts : List Attempt)
    (h1 : o.status ≠ .OPEN) (h2 : o.status ≠ .PARTFILL) :
    run_attempts o s atts = o := by
  induction atts with
  | nil => rfl
  | cons a t ih =>
    unfold run_attempts at ih ⊢
    rw [List.foldl_cons, execute_order_noop o s a h1 h2]
    exact ih

theorem _execute_market_fill_price (o : Order) (bid ask : ℚ) (md : MarketData)
    (s : Bool) (r : SlipRand) (fp : ℚ) (fq : ℕ)
    (h : (_execute_market o bid ask md s r).2 = some (fp, fq)) :
    (o.side = .BUY → ask ≤ fp) ∧ (o.side = .SELL → fp ≤ bid) := by
  unfold _execute_market at h
  by_cases hg : o.qty ≤ o.filled_qty
  · rw [if_pos hg] at h
    simp at h
  · rw [if_neg hg] at h
    dsimp only at h
    rcases hside : o.side with _ | _ <;> rw [hside] at h
    · simp only [reduceIte] at h
      have hts := calculate_slippage_nonneg ask (o.qty - o.filled_qty) md.iv
        (md.spread.getD 1) md.ask_qty s r
      rw [if_neg (not_lt.mpr hts)] at h
      simp only [Option.some.injEq, Prod.mk.injEq] at h
      constructor
      · intro _
        rw [← h.1]
        linarith
      · intro hcon
        exact absurd hcon (by decide)
    · simp only [if_neg (show ¬(OrderSide.SELL = OrderSide.BUY) from by decide)] at h
      have hts := calculate_slippage_nonneg bid (o.qty - o.filled_qty) md.iv
        (md.spread.getD 1) md.bid_qty s r
      rw [if_neg (not_lt.mpr hts)] at h
      simp only [Option.some.injEq, Prod.mk.injEq] at h
      constructor
      · intro hcon
        exact absurd hcon (by decide)
      · intro _
        rw [← h.1]
        linarith

theorem roundHalfEven_le_of_le {q : ℚ} {n : ℤ} (h : q ≤ (n : ℚ)) :
    roundHalfEven q ≤ n := by
  have hs := roundHalfEven_sub_le q
  rw [abs_le] at hs
  have : (roundHalfEven q : ℚ) < (n : ℚ) + 1 := by linarith
  exact_mod_cast Int.lt_add_one_iff.mp (by exact_mod_cast this)

theorem impact_ticks_eval : impact_ticks 10 100000 false = 1 := by
  unfold impact_ticks ceilSqrtNat
  norm_num
  rw [show ⌈(1/40000 : ℚ)⌉ = (1 : ℤ) from by rw [Int.ceil_eq_iff]; norm_num]
  norm_num

theorem clamp_eval_a :
    clamped_slippage 100 10 15 (1/10) 100000 false ⟨250, false⟩ = 1/20 := by
  unfold clamped_slippage total_slippage_raw latency_slip spread_used TICK_SIZE direction_bias
  norm_num [impact_ticks_eval]

theorem slip_eval_a :
    calculate_slippage 100 10 15 (1/10) 100000 false ⟨250, false⟩ = 0 := by
  unfold calculate_slippage
  rw [clamp_eval_a]
  have h : (1/20 : ℚ) / TICK_SIZE 100 = ((0:ℤ) : ℚ) + 1/2 := by
    unfold TICK_SIZE
    norm_num
  rw [h, roundHalfEven_eq_half_even (by norm_num)]
  norm_num

theorem clamp_eval_b :
    clamped_slippage 102 10 0 1 100000 false ⟨100, true⟩ = 1/2 := by
  unfold clamped_slippage total_slippage_raw latency_slip spread_used TICK_SIZE direction_bias
  norm_num [impact_ticks_eval]

theorem slip_eval_b :
    calculate_slippage 102 10 0 1 100000 false ⟨100, true⟩ = 1/2 := by
  unfold calculate_slippage
  rw [clamp_eval_b]
  have h : (1/2 : ℚ) / TICK_SIZE 102 = ((5:ℤ) : ℚ) := by
    unfold TICK_SIZE
    norm_num
  rw [h, roundHalfEven_eq_low (le_refl _) (by norm_num)]
  unfold TICK_SIZE
  norm_num

theorem clamp_eval_c :
    clamped_slippage 101 10 15 1 100000 false ⟨100, true⟩ = 1/2 := by
  unfold clamped_slippage total_slippage_raw latency_slip spread_used TICK_SIZE direction_bias
  norm_num [impact_ticks_eval]

theorem slip_eval_c :
    calculate_slippage 101 10 15 1 100000 false ⟨100, true⟩ = 1/2 := by
  unfold calculate_slippage
  rw [clamp_eval_c]
  have h : (1/2 : ℚ) / TICK_SIZE 101 = ((5:ℤ) : ℚ) := by
    unfold TICK_SIZE
    norm_num
  rw [h, roundHalfEven_eq_low (le_refl _) (by norm_num)]
  unfold TICK_SIZE
  norm_num

theorem clamp_eval_d :
    clamped_slippage 103 10 15 1 100000 false ⟨100, true⟩ = 1/2 := by
  unfold clamped_slippage total_slippage_raw latency_slip spread_used TICK_SIZE direction_bias
  norm_num [impact_ticks_eval]

theorem slip_eval_d :
    calculate_slippage 103 10 15 1 100000 false ⟨100, true⟩ = 1/2 := by
  unfold calculate_slippage
  rw [clamp_eval_d]
  have h : (1/2 : ℚ) / TICK_SIZE 103 = ((5:ℤ) : ℚ) := by
    unfold TICK_SIZE
    norm_num
  rw [h, roundHalfEven_eq_low (le_refl _) (by norm_num)]
  unfold TICK_SIZE
  norm_num

theorem exec_market_eval_scenario :
    (_execute_market mktOrder (999/10) 100 scenario_md false ⟨250, false⟩).2
      = some (100, 10) := by
  unfold _execute_market
  rw [if_neg (by decide : ¬(mktOrder.qty ≤ mktOrder.filled_qty))]
  simp only [mktOrder, scenario_md, reduceIte, Option.getD]
  norm_num [slip_eval_a]

theorem spread_used_of_pos {spread : ℚ} (price : ℚ) (h : 0 < spread) :
    spread_used price spread = spread := by
  unfold spread_used
  rw [if_neg (not_le.mpr h)]

theorem calculate_slippage_near_clamped (price : ℚ) (qty : ℕ) (iv spread : ℚ)
    (q_avail : ℤ) (isStock : Bool) (r : SlipRand) :
    |calculate_slippage price qty iv spread q_avail isStock r -
      clamped_slippage price qty iv spread q_avail isStock r| ≤ TICK_SIZE price / 2 := by
  have ht := TICK_SIZE_pos price
  have hne : TICK_SIZE price ≠ 0 := ne_of_gt ht
  unfold calculate_slippage
  set t := TICK_SIZE price with hT
  set c := clamped_slippage price qty iv spread q_avail isStock r with hC
  have hsub : (roundHalfEven (c / t) : ℚ) * t - c =
      ((roundHalfEven (c / t) : ℚ) - c / t) * t := by
    field_simp
  rw [hsub, abs_mul, abs_of_pos ht]
  have hb := roundHalfEven_sub_le (c / t)
  calc |(roundHalfEven (c / t) : ℚ) - c / t| * t ≤ (1/2) * t :=
        mul_le_mul_of_nonneg_right hb (le_of_lt ht)
    _ = t / 2 := by ring

/-- Claim C1 (amended): the mandatory guardrails hold before the final tick
rounding — for any aggressive execution with a positive stored spread the
clamped slippage lies in `[0.5 * spread, 3.0 * spread]` — and the returned
slippage differs from the clamped value by at most half a tick (the final
half-even rounding of line 157 can therefore leave the stated interval by
up to half a tick; it does, see the counterexample).  In the spec scenario
(MARKET BUY, qty 10, ask 100.00, bid 99.90, IV 15%, index instrument) the
fill price lies in `[100.00, 100.30]`, not `[100.05, 100.30]`. -/
theorem claim_slippage_guardrails :
    (∀ (price : ℚ) (qty : ℕ) (iv spread : ℚ) (q_avail : ℤ) (isStock : Bool)
      (r : SlipRand), 0 < spread →
      spread * (1/2) ≤ clamped_slippage price qty iv spread q_avail isStock r ∧
      clamped_slippage price qty iv spread q_avail isStock r ≤ spread * 3 ∧
      |calculate_slippage price qty iv spread q_avail isStock r -
        clamped_slippage price qty iv spread q_avail isStock r| ≤ TICK_SIZE price / 2) ∧
    (∀ (r : SlipRand) (fp : ℚ) (fq : ℕ),
      (_execute_market mktOrder (999/10) 100 scenario_md false r).2 = some (fp, fq) →
      100 ≤ fp ∧ fp ≤ 100 + 3/10) := by
  constructor
  · intro price qty iv spread q_avail isStock r h
    have h1 := clamped_slippage_ge price qty iv spread q_avail isStock r
    have h2 := clamped_slippage_le price qty iv spread q_avail isStock r
    rw [spread_used_of_pos price h] at h1 h2
    exact ⟨h1, h2, calculate_slippage_near_clamped price qty iv spread q_avail isStock r⟩
  · intro r fp fq h
    have hts := calculate_slippage_nonneg 100 10 15 (1/10) 100000 false r
    have hcl : clamped_slippage 100 10 15 (1/10) 100000 false r ≤ 3/10 := by
      have h2 := clamped_slippage_le 100 10 15 (1/10) 100000 false r
      rw [spread_used_of_pos 100 (by norm_num)] at h2
      linarith
    have htsle : calculate_slippage 100 10 15 (1/10) 100000 false r ≤ 3/10 := by
      unfold calculate_slippage
      have htick : TICK_SIZE 100 = 1/10 := by
        unfold TICK_SIZE
        norm_num
      rw [htick]
      have hratio : clamped_slippage 100 10 15 (1/10) 100000 false r / (1/10) ≤ ((3:ℤ) : ℚ) := by
        rw [div_le_iff₀ (by norm_num : (0:ℚ) < 1/10)]
        push_cast
        linarith
      have := roundHalfEven_le_of_le hratio
      have hc : (roundHalfEven (clamped_slippage 100 10 15 (1/10) 100000 false r / (1/10)) : ℚ) ≤ 3 := by
        exact_mod_cast this
      linarith
    unfold _execute_market at h
    rw [if_neg (by decide : ¬(mktOrder.qty ≤ mktOrder.filled_qty))] at h
    simp only [mktOrder, scenario_md, reduceIte, Option.getD] at h
    norm_num at h
    rw [if_neg (not_lt.mpr hts)] at h
    have hfp : 100 + calculate_slippage 100 10 15 (1/10) 100000 false r = fp := h.1
    constructor
    · linarith [hts, hfp]
    · linarith [htsle, hfp]

/-- Claim C1 counterexample: in the spec's own scenario (MARKET BUY qty 10,
ask 100.00, bid 99.90, IV 15, index, spread 0.10), the latency draw 250 ms
with the favorable direction (probability 0.30) yields a clamped slippage of
exactly 0.5 x spread = 0.05, which the final rounding to the 0.10 tick
(half-even) rounds to 0: the returned slippage violates the claimed lower
bound `0.5 x spread` and the fill price is 100.00, outside
`[100.05, 100.30]`. -/
theorem claim_slippage_guardrails_ctrex :
    calculate_slippage 100 10 15 (1/10) 100000 false ⟨250, false⟩ = 0 ∧
    ¬((1/10 : ℚ) * (1/2) ≤ |calculate_slippage 100 10 15 (1/10) 100000 false ⟨250, false⟩|) ∧
    (_execute_market mktOrder (999/10) 100 scenario_md false ⟨250, false⟩).2
      = some (100, 10) ∧
    ¬(100 + (1/10 : ℚ) * (1/2) ≤ 100) := by
  refine ⟨slip_eval_a, ?_, exec_market_eval_scenario, by norm_num⟩
  rw [slip_eval_a]
  norm_num

/-- Witness for the amended claim C1 at the scenario inputs. -/
theorem claim_slippage_guardrails_witness :
    ((1/10 : ℚ) * (1/2) ≤ clamped_slippage 100 10 15 (1/10) 100000 false ⟨250, false⟩ ∧
      clamped_slippage 100 10 15 (1/10) 100000 false ⟨250, false⟩ ≤ (1/10) * 3 ∧
      |calculate_slippage 100 10 15 (1/10) 100000 false ⟨250, false⟩ -
        clamped_slippage 100 10 15 (1/10) 100000 false ⟨250, false⟩| ≤ TICK_SIZE 100 / 2) ∧
    (100 ≤ (100:ℚ) ∧ (100:ℚ) ≤ 100 + 3/10) :=
  ⟨claim_slippage_guardrails.1 100 10 15 (1/10) 100000 false ⟨250, false⟩ (by norm_num),
    claim_slippage_guardrails.2 ⟨250, false⟩ 100 10 exec_market_eval_scenario⟩

/-- Claim C3: over every sequence of execution attempts, `filled_qty` is
non-decreasing and stays within `0 ≤ filled_qty ≤ qty` (with `qty` itself
unchanged), the status only advances along the OPEN → PARTIAL → FILLED
progression (CANCELLED terminal), and an order whose status is not
OPEN/PARTIAL is left completely unchanged by `execute_order`: repeated
attempts on a FILLED or CANCELLED order are no-ops. -/
theorem claim_fill_invariants :
    (∀ (o : Order) (s : Bool) (atts : List Attempt),
      o.filled_qty ≤ (run_attempts o s atts).filled_qty) ∧
    (∀ (o : Order) (s : Bool) (atts : List Attempt),
      (run_attempts o s atts).qty = o.qty) ∧
    (∀ (o : Order) (s : Bool) (atts : List Attempt),
      o.filled_qty ≤ o.qty → (run_attempts o s atts).filled_qty ≤ o.qty) ∧
    (∀ (o : Order) (s : Bool) (atts : List Attempt),
      statusRank o.status ≤ statusRank (run_attempts o s atts).status) ∧
    (∀ (o : Order) (s : Bool) (a : Attempt),
      o.status ≠ .OPEN → o.status ≠ .PARTFILL → execute_order o s a = (o, none)) ∧
    (∀ (o : Order) (s : Bool) (atts : List Attempt),
      o.status ≠ .OPEN → o.status ≠ .PARTFILL → run_attempts o s atts = o) :=
  ⟨run_attempts_filled_mono, run_attempts_qty, run_attempts_filled_le,
    run_attempts_rank, execute_order_noop, run_attempts_noop⟩

/-- Witness for claim C3 at a concrete order and attempt list. -/
theorem claim_fill_invariants_witness :
    mktOrder.filled_qty ≤ (run_attempts mktOrder false [emptyAttempt]).filled_qty ∧
    (run_attempts mktOrder false [emptyAttempt]).filled_qty ≤ mktOrder.qty ∧
    execute_order doneOrder false emptyAttempt = (doneOrder, none) ∧
    run_attempts doneOrder false [emptyAttempt] = doneOrder :=
  ⟨claim_fill_invariants.1 mktOrder false [emptyAttempt],
    claim_fill_invariants.2.2.1 mktOrder false [emptyAttempt] (by decide),
    claim_fill_invariants.2.2.2.2.1 doneOrder false emptyAttempt (by decide) (by decide),
    claim_fill_invariants.2.2.2.2.2 doneOrder false [emptyAttempt] (by decide) (by decide)⟩

/-- Claim C10: for all inputs, `SlippageModel.calculate_slippage` returns a
nonnegative integer multiple of the tick size (0.05 below price 100, else
0.10); consequently the favorable-slippage branch of `_execute_market`
(lines 361-368) is unreachable from a returned value and a MARKET/INSTANT
fill never improves on the touched price: a BUY fills at or above the ask,
a SELL at or below the bid. -/
theorem claim_slippage_nonneg_tick_multiple :
    (∀ (price : ℚ) (qty : ℕ) (iv spread : ℚ) (q_avail : ℤ) (isStock : Bool)
      (r : SlipRand),
      0 ≤ calculate_slippage price qty iv spread q_avail isStock r ∧
      ∃ n : ℕ, calculate_slippage price qty iv spread q_avail isStock r
        = (n : ℚ) * TICK_SIZE price) ∧
    (∀ (o : Order) (bid ask : ℚ) (md : MarketData) (s : Bool) (r : SlipRand)
      (fp : ℚ) (fq : ℕ),
      (_execute_market o bid ask md s r).2 = some (fp, fq) →
      (o.side = .BUY → ask ≤ fp) ∧ (o.side = .SELL → fp ≤ bid)) :=
  ⟨fun price qty iv spread q_avail isStock r =>
    ⟨calculate_slippage_nonneg price qty iv spread q_avail isStock r,
      calculate_slippage_tick_multiple price qty iv spread q_avail isStock r⟩,
    _execute_market_fill_price⟩

/-- Witness for claim C10 at the scenario inputs. -/
theorem claim_slippage_nonneg_tick_multiple_witness :
    (0 ≤ calculate_slippage 100 10 15 (1/10) 100000 false ⟨250, false⟩ ∧
      ∃ n : ℕ, calculate_slippage 100 10 15 (1/10) 100000 false ⟨250, false⟩
        = (n : ℚ) * TICK_SIZE 100) ∧
    ((mktOrder.side = .BUY → (100:ℚ) ≤ 100) ∧
      (mktOrder.side = .SELL → (100:ℚ) ≤ 999/10)) :=
  ⟨claim_slippage_nonneg_tick_multiple.1 100 10 15 (1/10) 100000 false ⟨250, false⟩,
    claim_slippage_nonneg_tick_multiple.2 mktOrder (999/10) 100 scenario_md false
      ⟨250, false⟩ 100 10 exec_market_eval_scenario⟩

theorem resolve_md_no_override (a : Attempt) (h : a.simulated_price = none) :
    resolve_md a = a.md := by
  unfold resolve_md
  rw [h]
  simp

theorem resolve_md_live (a : Attempt) (m : MarketData) (hmd : a.md = some m)
    (hltp : m.ltp ≠ 0) (hchk : should_simulate_checks m a.now_ms = false) :
    resolve_md a = a.md := by
  unfold resolve_md
  rw [hmd]
  rcases hsp : a.simulated_price with _ | p <;> simp [hltp, hchk]

theorem resolve_md_fallback (a : Attempt) (m : MarketData) (p : ℚ)
    (hmd : a.md = some m) (hltp : m.ltp ≠ 0) (hsp : a.simulated_price = some p)
    (hp : p ≠ 0) (hchk : should_simulate_checks m a.now_ms = true) :
    resolve_md a = some (simMD p) := by
  unfold resolve_md
  rw [hmd, hsp]
  simp [hltp, hchk, hp]

/-- Claim C5 (amended): an execution attempt whose stored quote is a crossed
book (bid > 0, ask > 0, bid > ask) aborts with the order and its fill state
completely untouched — no fill, hence no trade or balance mutation —
PROVIDED the simulated-price fallback is not engaged (no caller-supplied
simulated price, or the quote is live and passes the staleness/mixed-flag
checks).  When the fallback is engaged the crossed stored quote is
discarded and execution proceeds against the simulated price instead (see
the counterexample). -/
theorem claim_crossed_book_abort (o : Order) (s : Bool) (a : Attempt)
    (m : MarketData) (hmd : a.md = some m) (hb : 0 < m.bid) (ha : 0 < m.ask)
    (hx : m.ask < m.bid)
    (hnofb : a.simulated_price = none ∨
      (m.ltp ≠ 0 ∧ should_simulate_checks m a.now_ms = false)) :
    execute_order o s a = (o, none) := by
  unfold execute_order
  by_cases hst : o.status ≠ .OPEN ∧ o.status ≠ .PARTFILL
  · rw [if_pos hst]
  · rw [if_neg hst]
    have hres : resolve_md a = some m := by
      rcases hnofb with h | ⟨h1, h2⟩
      · rw [resolve_md_no_override a h, hmd]
      · rw [resolve_md_live a m hmd h1 h2, hmd]
    rw [hres]
    dsimp only
    by_cases hz : m.ltp = 0
    · rw [if_pos hz]
    · rw [if_neg hz, if_pos ⟨hb, ha, hx⟩]

/-- Witness for claim C5: a crossed book with no simulated-price override
leaves the OPEN market order untouched. -/
theorem claim_crossed_book_abort_witness :
    execute_order mktOrder false ⟨some crossed_md, none, 1000, ⟨100, true⟩⟩
      = (mktOrder, none) :=
  claim_crossed_book_abort mktOrder false _ crossed_md rfl (by norm_num [crossed_md])
    (by norm_num [crossed_md]) (by norm_num [crossed_md]) (Or.inl rfl)

/-- Claim C5 counterexample: the same crossed book (bid 105 > ask 100), but
with mismatched simulated flags and a caller-supplied simulated price 102:
`should_simulate` fires, the crossed quote is replaced by the simulated one,
and the order FILLS (at 102.50 after slippage) instead of aborting. -/
theorem claim_crossed_book_abort_ctrex :
    (execute_order mktOrder false ⟨some crossed_mixed_md, some 102, 1000, ⟨100, true⟩⟩).1.status
      = .FILLED ∧
    (execute_order mktOrder false ⟨some crossed_mixed_md, some 102, 1000, ⟨100, true⟩⟩).2
      = some (205/2, 10) := by
  have hres : resolve_md ⟨some crossed_mixed_md, some 102, 1000, ⟨100, true⟩⟩
      = some (simMD 102) := by
    apply resolve_md_fallback _ crossed_mixed_md 102 rfl
      (by norm_num [crossed_mixed_md, crossed_md]) rfl (by norm_num)
    unfold should_simulate_checks
    norm_num [crossed_mixed_md, crossed_md]
  have hmkt : (_execute_market mktOrder (simMD 102).bid (simMD 102).ask (simMD 102)
      false ⟨100, true⟩).2 = some (205/2, 10) ∧
      (_execute_market mktOrder (simMD 102).bid (simMD 102).ask (simMD 102)
      false ⟨100, true⟩).1.status = .FILLED := by
    unfold _execute_market
    rw [if_neg (by decide : ¬(mktOrder.qty ≤ mktOrder.filled_qty))]
    simp only [mktOrder, simMD, reduceIte, Option.getD]
    norm_num [slip_eval_b]
    exact _apply_fill_status_filled _ _ _ (by decide)
  have hexec : execute_order mktOrder false ⟨some crossed_mixed_md, some 102, 1000, ⟨100, true⟩⟩
      = _execute_market mktOrder (simMD 102).bid (simMD 102).ask (simMD 102) false ⟨100, true⟩ := by
    unfold execute_order
    rw [if_neg (by decide)]
    rw [hres]
    dsimp only
    rw [if_neg (by norm_num [simMD]), if_neg (by norm_num [simMD])]
    rw [if_pos (by decide)]
  rw [hexec]
  exact ⟨hmkt.2, hmkt.1⟩

/-- Claim C6 (amended): the mixed-flag fallback operates only when a
caller-supplied simulated price is present.  In that case a stored quote
with mismatched simulated flags (and nonzero LTP) is discarded entirely:
the attempt's outcome is the same for any two such quotes — it depends only
on the order, the simulated price and the random draws — so the fill is
priced from the simulated price, never from the mismatched bid/ask pair.
Without an override the engine prices from the mixed book (see the
counterexample). -/
theorem claim_mixed_book_fallback (o : Order) (s : Bool) (p : ℚ)
    (n1 n2 : ℤ) (r : SlipRand) (m1 m2 : MarketData) (hp : p ≠ 0)
    (h1 : m1.bid_simulated ≠ m1.ask_simulated)
    (h2 : m2.bid_simulated ≠ m2.ask_simulated)
    (hl1 : m1.ltp ≠ 0) (hl2 : m2.ltp ≠ 0) :
    execute_order o s ⟨some m1, some p, n1, r⟩
      = execute_order o s ⟨some m2, some p, n2, r⟩ := by
  have hc1 : should_simulate_checks m1 n1 = true := by
    unfold should_simulate_checks
    rw [if_pos h1]
  have hc2 : should_simulate_checks m2 n2 = true := by
    unfold should_simulate_checks
    rw [if_pos h2]
  have hr1 : resolve_md ⟨some m1, some p, n1, r⟩ = some (simMD p) :=
    resolve_md_fallback _ m1 p rfl hl1 rfl hp hc1
  have hr2 : resolve_md ⟨some m2, some p, n2, r⟩ = some (simMD p) :=
    resolve_md_fallback _ m2 p rfl hl2 rfl hp hc2
  unfold execute_order
  rw [hr1, hr2]

/-- Claim C6 counterexample: with NO caller-supplied simulated price, the
engine executes on a mixed real/simulated book and prices the fill from its
ask: two stored quotes identical except for the ask (101 vs 103, same LTP
102) produce different fills (101.5 vs 103.5), so the engine neither blocks
nor falls back to LTP-only pricing when no override is present. -/
theorem claim_mixed_book_fallback_ctrex :
    mixed_md_a.bid_simulated ≠ mixed_md_a.ask_simulated ∧
    mixed_md_b.bid_simulated ≠ mixed_md_b.ask_simulated ∧
    mixed_md_a.ltp = mixed_md_b.ltp ∧
    (execute_order mktOrder false ⟨some mixed_md_a, none, 1000, ⟨100, true⟩⟩).2
      = some (203/2, 10) ∧
    (execute_order mktOrder false ⟨some mixed_md_b, none, 1000, ⟨100, true⟩⟩).2
      = some (207/2, 10) ∧
    execute_order mktOrder false ⟨some mixed_md_a, none, 1000, ⟨100, true⟩⟩
      ≠ execute_order mktOrder false ⟨some mixed_md_b, none, 1000, ⟨100, true⟩⟩ := by
  have hra : resolve_md ⟨some mixed_md_a, none, 1000, ⟨100, true⟩⟩ = some mixed_md_a :=
    resolve_md_no_override _ rfl
  have hrb : resolve_md ⟨some mixed_md_b, none, 1000, ⟨100, true⟩⟩ = some mixed_md_b :=
    resolve_md_no_override _ rfl
  have hea : execute_order mktOrder false ⟨some mixed_md_a, none, 1000, ⟨100, true⟩⟩
      = _execute_market mktOrder mixed_md_a.bid mixed_md_a.ask mixed_md_a false ⟨100, true⟩ := by
    unfold execute_order
    rw [if_neg (by decide), hra]
    dsimp only
    rw [if_neg (by norm_num [mixed_md_a]), if_neg (by norm_num [mixed_md_a])]
    rw [if_pos (by decide)]
  have heb : execute_order mktOrder false ⟨some mixed_md_b, none, 1000, ⟨100, true⟩⟩
      = _execute_market mktOrder mixed_md_b.bid mixed_md_b.ask mixed_md_b false ⟨100, true⟩ := by
    unfold execute_order
    rw [if_neg (by decide), hrb]
    dsimp only
    rw [if_neg (by norm_num [mixed_md_b, mixed_md_a]), if_neg (by norm_num [mixed_md_b, mixed_md_a])]
    rw [if_pos (by decide)]
  have hfa : (_execute_market mktOrder mixed_md_a.bid mixed_md_a.ask mixed_md_a
      false ⟨100, true⟩).2 = some (203/2, 10) := by
    unfold _execute_market
    rw [if_neg (by decide : ¬(mktOrder.qty ≤ mktOrder.filled_qty))]
    simp only [mktOrder, mixed_md_a, reduceIte, Option.getD]
    norm_num [slip_eval_c]
  have hfb : (_execute_market mktOrder mixed_md_b.bid mixed_md_b.ask mixed_md_b
      false ⟨100, true⟩).2 = some (207/2, 10) := by
    unfold _execute_market
    rw [if_neg (by decide : ¬(mktOrder.qty ≤ mktOrder.filled_qty))]
    simp only [mktOrder, mixed_md_b, mixed_md_a, reduceIte, Option.getD]
    norm_num [slip_eval_d]
  refine ⟨by decide, by decide, by norm_num [mixed_md_a, mixed_md_b], ?_, ?_, ?_⟩
  · rw [hea]
    exact hfa
  · rw [heb]
    exact hfb
  · intro hcon
    have h2 : (some ((203:ℚ)/2, (10:ℕ)) : Option (ℚ × ℕ)) = some ((207:ℚ)/2, (10:ℕ)) := by
      rw [← hfa, ← hea, hcon, heb, hfb]
    norm_num at h2

/-- Witness for the amended claim C6: two different mixed-flag quotes with
the same override produce identical outcomes. -/
theorem claim_mixed_book_fallback_witness :
    execute_order mktOrder false ⟨some mixed_md_a, some 102, 1000, ⟨100, true⟩⟩
      = execute_order mktOrder false ⟨some crossed_mixed_md, some 102, 555, ⟨100, true⟩⟩ :=
  claim_mixed_book_fallback mktOrder false 102 1000 555 ⟨100, true⟩ mixed_md_a
    crossed_mixed_md (by norm_num) (by decide) (by decide)
    (by norm_num [mixed_md_a]) (by norm_num [crossed_mixed_md, crossed_md])

theorem fifo_close_stop (os : OrderSide) (e : ℚ) (t : TradeRec)
    (rest : List TradeRec) :
    fifo_close os e 0 (t :: rest) = (t :: rest, [], 0, 0, 0) := by
  simp only [fifo_close]
  rw [if_pos trivial]

theorem fifo_close_full (os : OrderSide) (e : ℚ) (r : ℕ) (t : TradeRec)
    (rest : List TradeRec) (hr : r ≠ 0) (hq : t.qty ≤ r) :
    fifo_close os e r (t :: rest) =
      ({ t with
          status := .CLOSED
          exit_price := some e
          realized_pnl := close_pnl t e t.qty } :: (fifo_close os e (r - t.qty) rest).1,
        (fifo_close os e (r - t.qty) rest).2.1,
        (fifo_close os e (r - t.qty) rest).2.2.1,
        close_pnl t e t.qty + (fifo_close os e (r - t.qty) rest).2.2.2.1,
        (if os = .SELL then (t.qty : ℚ) * e else -((t.qty : ℚ) * e)) +
          (fifo_close os e (r - t.qty) rest).2.2.2.2) := by
  simp only [fifo_close]
  rw [if_neg hr, Nat.min_eq_left hq, if_pos rfl]

theorem fifo_close_part (os : OrderSide) (e : ℚ) (r : ℕ) (t : TradeRec)
    (rest : List TradeRec) (hr : r ≠ 0) (hq : r < t.qty) :
    fifo_close os e r (t :: rest) =
      ({ t with qty := t.qty - r } :: (fifo_close os e 0 rest).1,
        { side := t.side
          qty := r
          entry_price := t.entry_price
          exit_price := some e
          status := .CLOSED
          realized_pnl := close_pnl t e r } :: (fifo_close os e 0 rest).2.1,
        (fifo_close os e 0 rest).2.2.1,
        close_pnl t e r + (fifo_close os e 0 rest).2.2.2.1,
        (if os = .SELL then (r : ℚ) * e else -((r : ℚ) * e)) +
          (fifo_close os e 0 rest).2.2.2.2) := by
  simp only [fifo_close]
  rw [if_neg hr, Nat.min_eq_right (le_of_lt hq), if_neg (by omega : ¬(r = t.qty)),
    Nat.sub_self]

/-- Claim C2: FIFO netting.  General part: for any three opposite-side OPEN
trades in creation order and a closing fill quantity strictly between
`t1.qty` and `t1.qty + t2.qty`, trade 1 is fully closed (status CLOSED,
exit price set, realized PnL per the long/short close formula `close_pnl`),
trade 2 keeps its row with its quantity reduced by the excess while a
separate CLOSED slice row is inserted carrying its own realized PnL, and
trade 3 is untouched; no new position is opened.  Scenario part: two OPEN
long trades of 5@100 and 5@102 hit by a SELL fill of 7@110 yield realized
PnL 50 and 16 and leave trade 2 open at qty 3. -/
theorem claim_fifo_netting :
    (∀ (t1 t2 t3 : TradeRec) (oside : OrderSide) (fq : ℕ) (exitP : ℚ),
      t1.status = .OPEN → t2.status = .OPEN → t3.status = .OPEN →
      t1.qty < fq → fq < t1.qty + t2.qty →
      (_create_trade oside fq exitP [t1, t2, t3]).updated =
        [{ t1 with
            status := .CLOSED
            exit_price := some exitP
            realized_pnl := close_pnl t1 exitP t1.qty },
          { t2 with qty := t2.qty - (fq - t1.qty) }, t3] ∧
      (_create_trade oside fq exitP [t1, t2, t3]).slices =
        [{ side := t2.side
           qty := fq - t1.qty
           entry_price := t2.entry_price
           exit_price := some exitP
           status := .CLOSED
           realized_pnl := close_pnl t2 exitP (fq - t1.qty) }] ∧
      (_create_trade oside fq exitP [t1, t2, t3]).new_trade = none ∧
      (_create_trade oside fq exitP [t1, t2, t3]).total_pnl =
        close_pnl t1 exitP t1.qty + close_pnl t2 exitP (fq - t1.qty)) ∧
    (_create_trade .SELL 7 110
        [⟨.BUY, 5, 100, none, .OPEN, 0⟩, ⟨.BUY, 5, 102, none, .OPEN, 0⟩] =
      { updated := [⟨.BUY, 5, 100, some 110, .CLOSED, 50⟩,
          ⟨.BUY, 3, 102, none, .OPEN, 0⟩]
        slices := [⟨.BUY, 2, 102, some 110, .CLOSED, 16⟩]
        new_trade := none
        total_pnl := 66
        balance_delta := 770 }) := by
  constructor
  · intro t1 t2 t3 oside fq exitP h1 h2 h3 hlt hub
    have hfq0 : fq ≠ 0 := by omega
    have hrem1 : fq - t1.qty ≠ 0 := by omega
    have hq2 : fq - t1.qty < t2.qty := by omega
    have hstep : fifo_close oside exitP fq [t1, t2, t3] =
        ({ t1 with
            status := .CLOSED
            exit_price := some exitP
            realized_pnl := close_pnl t1 exitP t1.qty } ::
          ({ t2 with qty := t2.qty - (fq - t1.qty) } :: [t3]),
          [{ side := t2.side
             qty := fq - t1.qty
             entry_price := t2.entry_price
             exit_price := some exitP
             status := .CLOSED
             realized_pnl := close_pnl t2 exitP (fq - t1.qty) }],
          0,
          close_pnl t1 exitP t1.qty + (close_pnl t2 exitP (fq - t1.qty) + 0),
          (if oside = .SELL then (t1.qty : ℚ) * exitP else -((t1.qty : ℚ) * exitP)) +
            ((if oside = .SELL then ((fq - t1.qty : ℕ) : ℚ) * exitP
              else -(((fq - t1.qty : ℕ) : ℚ) * exitP)) + 0)) := by
      rw [fifo_close_full oside exitP fq t1 [t2, t3] hfq0 (le_of_lt hlt),
        fifo_close_part oside exitP (fq - t1.qty) t2 [t3] hrem1 hq2,
        fifo_close_stop oside exitP t3 []]
    unfold _create_trade
    rw [hstep]
    dsimp only
    rw [if_neg (by omega : ¬(0 < 0))]
    refine ⟨rfl, rfl, rfl, by ring⟩
  · have h1 : fifo_close OrderSide.SELL 110 7
        [⟨.BUY, 5, 100, none, .OPEN, 0⟩, ⟨.BUY, 5, 102, none, .OPEN, 0⟩] =
        ([⟨.BUY, 5, 100, some 110, .CLOSED, 50⟩, ⟨.BUY, 3, 102, none, .OPEN, 0⟩],
          [⟨.BUY, 2, 102, some 110, .CLOSED, 16⟩], 0, 66, 770) := by
      rw [fifo_close_full OrderSide.SELL 110 7 ⟨.BUY, 5, 100, none, .OPEN, 0⟩
          [⟨.BUY, 5, 102, none, .OPEN, 0⟩] (by norm_num) (by norm_num)]
      rw [show (7 : ℕ) - (TradeRec.mk .BUY 5 100 none .OPEN 0).qty = 2 from rfl]
      rw [fifo_close_part OrderSide.SELL 110 2 ⟨.BUY, 5, 102, none, .OPEN, 0⟩ []
          (by norm_num) (by norm_num)]
      simp only [fifo_close]
      norm_num [close_pnl]
    unfold _create_trade
    rw [h1]
    norm_num

/-- Witness for claim C2: the spec scenario extended with an untouched third
trade (7@105), closed by a SELL fill of 7@110. -/
theorem claim_fifo_netting_witness :
    (_create_trade .SELL 7 110
        [⟨.BUY, 5, 100, none, .OPEN, 0⟩, ⟨.BUY, 5, 102, none, .OPEN, 0⟩,
          ⟨.BUY, 7, 105, none, .OPEN, 0⟩]).updated =
      [{ (⟨.BUY, 5, 100, none, .OPEN, 0⟩ : TradeRec) with
          status := .CLOSED
          exit_price := some 110
          realized_pnl := close_pnl ⟨.BUY, 5, 100, none, .OPEN, 0⟩ 110 5 },
        { (⟨.BUY, 5, 102, none, .OPEN, 0⟩ : TradeRec) with qty := 5 - (7 - 5) },
        ⟨.BUY, 7, 105, none, .OPEN, 0⟩] ∧
    (_create_trade .SELL 7 110
        [⟨.BUY, 5, 100, none, .OPEN, 0⟩, ⟨.BUY, 5, 102, none, .OPEN, 0⟩,
          ⟨.BUY, 7, 105, none, .OPEN, 0⟩]).new_trade = none := by
  have h := claim_fifo_netting.1 ⟨.BUY, 5, 100, none, .OPEN, 0⟩
    ⟨.BUY, 5, 102, none, .OPEN, 0⟩ ⟨.BUY, 7, 105, none, .OPEN, 0⟩ .SELL 7 110
    rfl rfl rfl (by norm_num) (by norm_num)
  exact ⟨h.1, h.2.2.1⟩

/-- Claim C4: at spot 23525 with strike step 50 the source returns ATM
23500, not the 23550 demanded by the spec and by the source's own docstring
("Uses Standard Rounding (Half up) ... 23525 -> 23550"): Python's builtin
`round` rounds half to even, so 470.5 rounds to 470.  The no-tie case
23524 → 23500 agrees with the spec, and the half-up rule modelled from the
spec (`atm_spec_halfup`) indeed gives 23550. -/
theorem claim_atm_rounding :
    calculate_atm 50 23525 = 23500 ∧ atm_spec_halfup 50 23525 = 23550 ∧
    calculate_atm 50 23524 = 23500 ∧
    calculate_atm 50 23525 ≠ atm_spec_halfup 50 23525 := by
  have e1 : calculate_atm 50 23525 = 23500 := by
    unfold calculate_atm
    rw [if_neg (by norm_num : ¬((50:ℚ) ≤ 0))]
    rw [show (23525 : ℚ) / 50 = ((470 : ℤ) : ℚ) + 1/2 from by norm_num]
    rw [roundHalfEven_eq_half_even (by decide)]
    norm_num
  have e2 : atm_spec_halfup 50 23525 = 23550 := by
    unfold atm_spec_halfup
    rw [if_neg (by norm_num : ¬((50:ℚ) ≤ 0))]
    rw [show (23525 : ℚ) / 50 + 1/2 = ((471 : ℤ) : ℚ) from by norm_num]
    rw [Int.floor_intCast]
    norm_num
  have e3 : calculate_atm 50 23524 = 23500 := by
    unfold calculate_atm
    rw [if_neg (by norm_num : ¬((50:ℚ) ≤ 0))]
    rw [roundHalfEven_eq_low (n := 470) (by norm_num) (by norm_num)]
    norm_num
  refine ⟨e1, e2, e3, ?_⟩
  rw [e1, e2]
  norm_num

theorem _process_data_map {α : Type} (prev : Option α) (pre : List (ℕ × α)) :
    _process_data prev (pre.map (fun x => (x.1, some x.2))) = pre := by
  induction pre generalizing prev with
  | nil => rfl
  | cons x xs ih =>
    simp only [List.map_cons, _process_data]
    rw [ih]

theorem _process_data_stops_at_failure {α : Type} (prev : Option α)
    (front : List (ℕ × Option α)) (k : ℕ) (rest : List (ℕ × Option α)) :
    _process_data prev (front ++ (k, none) :: rest) =
      _process_data prev (front ++ [(k, none)]) := by
  induction front generalizing prev with
  | nil => rfl
  | cons x xs ih =>
    rcases x with ⟨k2, _ | d⟩
    · rfl
    · simp only [List.cons_append, _process_data]
      rw [show xs.append ((k, none) :: rest) = xs ++ (k, none) :: rest from rfl,
        show xs.append [(k, none)] = xs ++ [(k, none)] from rfl, ih]

/-- Claim C7 (amended): `_process_data` catches errors per MESSAGE, not per
instrument: every tick of a message that decodes successfully before the
first failure is buffered (first conjunct: an all-good message is buffered
in full), but the first failing tick aborts the remaining ticks of the same
message — the buffered output is the same as if the message ended at the
failing tick (second conjunct).  Only subsequent messages are unaffected,
because the exception is swallowed at the method level. -/
theorem claim_tick_errors_per_message :
    (∀ (α : Type) (pre : List (ℕ × α)),
      process_data (pre.map (fun x => (x.1, some x.2))) = pre) ∧
    (∀ (α : Type) (front : List (ℕ × Option α)) (k : ℕ)
      (rest : List (ℕ × Option α)),
      process_data (front ++ (k, none) :: rest) =
        process_data (front ++ [(k, none)])) :=
  ⟨fun _ pre => _process_data_map none pre,
    fun _ front k rest => _process_data_stops_at_failure none front k rest⟩

/-- Claim C7 counterexample: in a two-instrument message whose first tick
raises during decode, the second instrument's perfectly decodable tick is
never buffered — the claim that per-instrument errors do not prevent the
remaining instruments of the same message from being processed is false. -/
theorem claim_tick_errors_per_message_ctrex :
    process_data [(0, (none : Option ℕ)), (1, some 7)] = [] ∧
    (1, 7) ∉ process_data [(0, (none : Option ℕ)), (1, some 7)] := by
  constructor
  · rfl
  · intro hmem
    rw [show process_data [(0, (none : Option ℕ)), (1, some 7)] = [] from rfl] at hmem
    exact List.not_mem_nil _ hmem

/-- Claim C8: any input with `spot_price ≤ 0`, `strike_price ≤ 0`,
`option_ltp ≤ 0` or `time_to_expiry_days < 0` yields exactly the all-zero
greeks dictionary, whatever the Black-Scholes stage would have computed
(the guards of lines 35-41 return before any computation, so no exception
can be raised). -/
theorem claim_greeks_guard (spot strike days ltp : ℚ) (raw : RawGreeks)
    (h : spot ≤ 0 ∨ strike ≤ 0 ∨ ltp ≤ 0 ∨ days < 0) :
    calculate_greeks spot strike days ltp raw = zeroGreeks := by
  unfold calculate_greeks
  rcases h with h | h | h | h
  · rw [if_pos (Or.inl h)]
  · rw [if_pos (Or.inr (Or.inl h))]
  · rw [if_pos (Or.inr (Or.inr h))]
  · by_cases h1 : spot ≤ 0 ∨ strike ≤ 0 ∨ ltp ≤ 0
    · rw [if_pos h1]
    · rw [if_neg h1, if_pos h]

/-- Witness for claim C8: the spec scenario spot = 0. -/
theorem claim_greeks_guard_witness :
    calculate_greeks 0 100 5 10 ⟨.val 1, .val 1, .val 1, .val 1, .val 1⟩
      = zeroGreeks :=
  claim_greeks_guard 0 100 5 10 _ (Or.inl (by norm_num))

/-- Claim C9: the returned gamma is NOT the computed gamma rounded to 6
decimal places.  The source computes `round(safe_val(gamma), 6)` (line 84)
and `safe_val` already rounds to 4 decimals, so the 6-decimal rounding is a
no-op on an already-4-decimal value: for computed gamma 0.000123 (with
valid inputs and solved IV 0.2) the code returns 0.0001 while rounding the
computed gamma to 6 decimals gives 0.000123.  The NaN/Inf sanitization and
the 4-decimal rounding of the other outputs are as the spec states. -/
theorem claim_greeks_gamma_rounding :
    (calculate_greeks 100 100 5 10
        ⟨.val (1/5), .val (1/2), .val (-(3/100)), .val (123/1000000), .val (3/25)⟩).gamma
      = 1/10000 ∧
    roundDp 6 (123/1000000) = 123/1000000 ∧
    (calculate_greeks 100 100 5 10
        ⟨.val (1/5), .val (1/2), .val (-(3/100)), .val (123/1000000), .val (3/25)⟩).gamma
      ≠ roundDp 6 (123/1000000) := by
  have hr4 : roundDp 4 (123/1000000) = 1/10000 := by
    unfold roundDp
    rw [show (123/1000000 : ℚ) * 10 ^ 4 = 123/100 from by norm_num]
    rw [roundHalfEven_eq_low (n := 1) (by norm_num) (by norm_num)]
    norm_num
  have hr6a : roundDp 6 ((1:ℚ)/10000) = 1/10000 := by
    unfold roundDp
    rw [show (1/10000 : ℚ) * 10 ^ 6 = ((100 : ℤ) : ℚ) from by norm_num]
    rw [roundHalfEven_eq_low (le_refl _) (by norm_num)]
    norm_num
  have hr6b : roundDp 6 ((123:ℚ)/1000000) = 123/1000000 := by
    unfold roundDp
    rw [show (123/1000000 : ℚ) * 10 ^ 6 = ((123 : ℤ) : ℚ) from by norm_num]
    rw [roundHalfEven_eq_low (le_refl _) (by norm_num)]
    norm_num
  have hrj : iv_reject (.val ((1:ℚ)/5)) = false := by
    unfold iv_reject
    dsimp only
    rw [decide_eq_false (by norm_num : ¬((1:ℚ)/5 = 0)),
      decide_eq_false (by norm_num : ¬((5:ℚ) < 1/5))]
    rfl
  have hg : (calculate_greeks 100 100 5 10
      ⟨.val (1/5), .val (1/2), .val (-(3/100)), .val (123/1000000), .val (3/25)⟩).gamma
      = 1/10000 := by
    unfold calculate_greeks
    rw [if_neg (by push_neg; norm_num), if_neg (by norm_num), if_neg (by rw [hrj]; norm_num)]
    show roundDp 6 (safe_val (.val (123/1000000))) = 1/10000
    unfold safe_val
    dsimp only
    rw [hr4, hr6a]
  refine ⟨hg, hr6b, ?_⟩
  rw [hg, hr6b]
  norm_num

end OptSim
